import Mathlib

/-!
Verification of the device-state synchronization core of the
`new_bestway_spa` Home Assistant integration.

The Python sources are shallowly embedded as executable Lean definitions:

* JSON values (`JVal`) and Python dictionaries as association lists (`JDict`),
  with lookup returning the binding of the first matching key (Python dicts
  have unique keys, so first-match lookup agrees with dict semantics).
* `coordinator.handle_websocket_update` — the push-delta merge
  (allow-list filter, field normalization, shallow merge).
* `spa_api.BestwaySpaAPI.get_status` — response unwrapping and the
  canonical-key mapping.
* `spa_api.BestwaySpaAPI.set_state` — the v2-encrypted / v1-plain fallback,
  with the HTTP exchanges supplied as oracle outcomes.
* `websocket.BestwayWebSocket` — connect / heartbeat / backoff logic, with
  network attempt outcomes supplied as scripted oracles; asynchronous effects
  (the delayed reconnect continuation inside `_schedule_reconnect`) are
  modelled up to the point of scheduling.
* `encryption.encrypt_command_payload` / `decrypt_command_payload` — the
  AES-CBC command scheme, with the external AES block cipher and SHA-256
  hash passed as parameters (they come from third-party libraries), and
  UTF-8, PKCS7 padding, CBC chaining, and base64 implemented concretely.
-/

namespace BestwaySpa

/-- JSON-ish value universe for Python dict values flowing through the
integration (null / bool / int / string / nested object). -/
inductive JVal where
  | vnull : JVal
  | vbool : Bool → JVal
  | vint : Int → JVal
  | vstr : String → JVal
  | vobj : List (String × JVal) → JVal

/-- A Python dict with string keys, as an association list. -/
abbrev JDict := List (String × JVal)

/-- Python `d[k]` / `d.get(k)` as an `Option`: the binding of the first
matching key. -/
def dictLookup (d : JDict) (k : String) : Option JVal :=
  match d.find? (fun kv => kv.1 == k) with
  | some kv => some kv.2
  | none => none

/-- Python `d.get(k)` with default `None`. -/
def pyGet (d : JDict) (k : String) : JVal :=
  match dictLookup d k with
  | some v => v
  | none => JVal.vnull

/-- Python `{**d, **n}`: keys of `d` whose key also occurs in `n` are
overridden by `n`; all other bindings of `d` persist. -/
def dictMerge (d n : JDict) : JDict :=
  d.filter (fun kv => (dictLookup n kv.1).isNone) ++ n

/-- Python `d[k] = v` on a dict: overwrite in place if present, else append. -/
def dictInsert (d : JDict) (k : String) (v : JVal) : JDict :=
  if (dictLookup d k).isSome then
    d.map (fun kv => if kv.1 == k then (k, v) else kv)
  else
    d ++ [(k, v)]

/-- Python `x == ""` for a JSON value: only the empty string compares equal. -/
def isEmptyStr : JVal → Bool
  | JVal.vstr s => s == ""
  | _ => false

/- ===================================================================
   coordinator.py — BestwayUpdateCoordinator.handle_websocket_update
   =================================================================== -/

/-- The `user_facing_fields` allow-list from
`coordinator.handle_websocket_update` (coordinator.py lines 75-92). -/
def user_facing_fields : List String :=
  ["wifivertion", "otastatus", "mcuversion", "trdversion", "ConnectType",
   "power_state", "heater_state", "wave_state", "filter_state",
   "temperature_setting", "temperature_unit", "water_temperature",
   "warning", "error_code", "hydrojet_state", "is_online"]

/-- `any(key in user_facing_fields for key in state.keys())`
(coordinator.py line 95). -/
def has_meaningful_change (state : JDict) : Bool :=
  state.any (fun kv => user_facing_fields.contains kv.1)

/-- One conditional entry of the `normalized` dict: if raw key `r` is present
in `state`, bind canonical key `c` to its value (coordinator.py lines 107-130,
139-142). -/
def deltaEntry (state : JDict) (r c : String) : JDict :=
  match dictLookup state r with
  | some v => [(c, v)]
  | none => []

/-- One conditional entry for `warning` / `error_code`, coercing an
empty-string value to integer 0 (coordinator.py lines 131-138). -/
def deltaEntrySentinel (state : JDict) (k : String) : JDict :=
  match dictLookup state k with
  | some v => [(k, if isEmptyStr v then JVal.vint 0 else v)]
  | none => []

/-- The `normalized` dict built by `handle_websocket_update`
(coordinator.py lines 104-142): sixteen conditional inserts in source order.
Since each inserted key is distinct, sequential dict insertion equals
concatenation of the singleton entries. -/
def normalizeDelta (state : JDict) : JDict :=
  deltaEntry state "wifivertion" "wifi_version" ++
  deltaEntry state "otastatus" "ota_status" ++
  deltaEntry state "mcuversion" "mcu_version" ++
  deltaEntry state "trdversion" "trd_version" ++
  deltaEntry state "ConnectType" "connect_type" ++
  deltaEntry state "power_state" "power_state" ++
  deltaEntry state "heater_state" "heater_state" ++
  deltaEntry state "wave_state" "wave_state" ++
  deltaEntry state "filter_state" "filter_state" ++
  deltaEntry state "temperature_setting" "temperature_setting" ++
  deltaEntry state "temperature_unit" "temperature_unit" ++
  deltaEntry state "water_temperature" "water_temperature" ++
  deltaEntrySentinel state "warning" ++
  deltaEntrySentinel state "error_code" ++
  deltaEntry state "hydrojet_state" "hydrojet_state" ++
  deltaEntry state "is_online" "is_online"

/-- `handle_websocket_update` (coordinator.py lines 62-153).
`data` is the coordinator's current snapshot (`self.data`, `none` when unset).
Result `some m` means `async_set_updated_data(m)` was called (merge +
observer notification); `none` means the update was discarded with no merge
and no notification. The `if self.data:` truthiness test treats both `None`
and the empty dict as absent. -/
def handle_websocket_update (data : Option JDict) (state : JDict) :
    Option JDict :=
  if has_meaningful_change state then
    let normalized := normalizeDelta state
    some (match data with
          | some d => if d.isEmpty then normalized else dictMerge d normalized
          | none => normalized)
  else
    none

/-- The coordinator's snapshot after `handle_websocket_update` runs: the
merged dict when an update was applied, the unchanged prior data otherwise. -/
def coordinator_after (data : Option JDict) (state : JDict) : Option JDict :=
  match handle_websocket_update data state with
  | some m => some m
  | none => data

/- ===================================================================
   spa_api.py — BestwaySpaAPI.get_status
   =================================================================== -/

/-- The sixteen canonical snapshot keys, in the order `get_status` builds
them (spa_api.py lines 157-174). -/
def canonicalKeys : List String :=
  ["wifi_version", "ota_status", "mcu_version", "trd_version", "connect_type",
   "power_state", "heater_state", "wave_state", "filter_state",
   "temperature_setting", "temperature_unit", "water_temperature",
   "warning", "error_code", "hydrojet_state", "is_online"]

/-- Canonical key to raw upstream key, per the `mapped` dict of `get_status`
(spa_api.py lines 157-174). -/
def keyRenames : List (String × String) :=
  [("wifi_version", "wifivertion"), ("ota_status", "otastatus"),
   ("mcu_version", "mcuversion"), ("trd_version", "trdversion"),
   ("connect_type", "ConnectType"), ("power_state", "power_state"),
   ("heater_state", "heater_state"), ("wave_state", "wave_state"),
   ("filter_state", "filter_state"),
   ("temperature_setting", "temperature_setting"),
   ("temperature_unit", "temperature_unit"),
   ("water_temperature", "water_temperature"), ("warning", "warning"),
   ("error_code", "error_code"), ("hydrojet_state", "hydrojet_state"),
   ("is_online", "is_online")]

/-- The `mapped` dict built by `get_status` from the unwrapped device state
(spa_api.py lines 152-174): `.get` defaults every absent key to `None`, and
`warning` / `error_code` coerce an empty-string value to integer 0. -/
def mapStatus (ds : JDict) : JDict :=
  let warning := pyGet ds "warning"
  let error_code := pyGet ds "error_code"
  [("wifi_version", pyGet ds "wifivertion"),
   ("ota_status", pyGet ds "otastatus"),
   ("mcu_version", pyGet ds "mcuversion"),
   ("trd_version", pyGet ds "trdversion"),
   ("connect_type", pyGet ds "ConnectType"),
   ("power_state", pyGet ds "power_state"),
   ("heater_state", pyGet ds "heater_state"),
   ("wave_state", pyGet ds "wave_state"),
   ("filter_state", pyGet ds "filter_state"),
   ("temperature_setting", pyGet ds "temperature_setting"),
   ("temperature_unit", pyGet ds "temperature_unit"),
   ("water_temperature", pyGet ds "water_temperature"),
   ("warning", if isEmptyStr warning then JVal.vint 0 else warning),
   ("error_code", if isEmptyStr error_code then JVal.vint 0 else error_code),
   ("hydrojet_state", pyGet ds "hydrojet_state"),
   ("is_online", pyGet ds "is_online")]

/-- `get_status` response processing (spa_api.py lines 136-177), applied to
`raw_data = data.get("data", {})`.  Unwraps `state.reported` if present, else
`state.desired`, else the `state` object, else `raw_data` itself, then builds
the canonical `mapped` dict.  `none` models the Python paths that raise
(membership test or `.get` on a non-dict `state`/`reported`/`desired`
value), which surface to the coordinator as `UpdateFailed`. -/
def get_status_model (raw_data : JDict) : Option JDict :=
  match dictLookup raw_data "state" with
  | some (JVal.vobj s) =>
    match dictLookup s "reported" with
    | some (JVal.vobj r) => some (mapStatus r)
    | some _ => none
    | none =>
      match dictLookup s "desired" with
      | some (JVal.vobj dd) => some (mapStatus dd)
      | some _ => none
      | none => some (mapStatus s)
  | some _ => none
  | none => some (mapStatus raw_data)

/- ===================================================================
   spa_api.py — BestwaySpaAPI.set_state (v2 → v1 fallback)
   =================================================================== -/

/-- Python `isinstance(value, bool): value = int(value)`
(spa_api.py lines 190-191). -/
def coercePyBool : JVal → JVal
  | JVal.vbool b => JVal.vint (if b then 1 else 0)
  | v => v

/-- Python `response.get("code") == 0` (spa_api.py line 234); in Python,
`False == 0` also holds. -/
def pyEqZero : Option JVal → Bool
  | some (JVal.vint n) => n == 0
  | some (JVal.vbool b) => !b
  | _ => false

/-- Outcome of the v2 HTTP exchange of `set_state`: the request/response
round-trip raises, or yields a parsed JSON response. -/
inductive V2Outcome where
  | raises : V2Outcome
  | responds : JDict → V2Outcome

/-- The unencrypted v1 `set_state` payload
`{device_id, product_id, desired: {state: {desired: {key: value}}}}`
(spa_api.py lines 246-256). -/
def v1Payload (device_id product_id key : String) (value : JVal) : JVal :=
  JVal.vobj
    [("device_id", JVal.vstr device_id),
     ("product_id", JVal.vstr product_id),
     ("desired", JVal.vobj
        [("state", JVal.vobj [("desired", JVal.vobj [(key, value)])])])]

/-- Result of a `set_state` call: the list of v1 payloads posted to
`/api/device/command/` and the response returned to the caller. -/
structure SetStateResult where
  v1_calls : List JVal
  response : JDict

/-- `set_state` control flow (spa_api.py lines 179-269).  The two HTTP
exchanges are supplied as oracles: `v2` is what the v2 endpoint does
(raise or respond), `v1resp` is the v1 endpoint's parsed response.  A v2
response with code 0 is returned directly; any v2 exception or non-zero
code falls through to exactly one v1 call whose response is returned. -/
def set_state_model (device_id product_id key : String) (value : JVal)
    (use_v2 : Bool) (v2 : V2Outcome) (v1resp : JDict) : SetStateResult :=
  let value := coercePyBool value
  let v1 : SetStateResult := ⟨[v1Payload device_id product_id key value], v1resp⟩
  if use_v2 then
    match v2 with
    | V2Outcome.responds resp =>
      if pyEqZero (dictLookup resp "code") then ⟨[], resp⟩ else v1
    | V2Outcome.raises => v1
  else
    v1

/- ===================================================================
   websocket.py — BestwayWebSocket
   =================================================================== -/

/-- Python `pat in s` substring containment for strings. -/
def containsSub (s pat : String) : Bool :=
  (List.range (s.length + 1)).any (fun i => (s.drop i).take pat.length == pat)

/-- `RECONNECT_DELAYS` (websocket.py line 56). -/
def RECONNECT_DELAYS : List Nat := [3, 6, 12, 24, 48, 60]

/-- `MAX_HEARTBEAT_FAILURES` (websocket.py line 53). -/
def MAX_HEARTBEAT_FAILURES : Nat := 3

/-- The mutable connection-session fields of `BestwayWebSocket` relevant to
the connect / reconnect / heartbeat logic. -/
structure WSState where
  token : String
  running : Bool
  heartbeat_failures : Nat
  reconnect_count : Nat

/-- `_schedule_reconnect` up to the point of scheduling (websocket.py lines
277-301): a no-op returning `none` when not running; otherwise yields the
backoff delay (the `RECONNECT_DELAYS` entry at the current attempt index,
clamped to the last entry) and the state with the attempt count
incremented.  The sleep / disconnect / reconnect continuation that follows
the delay is a separately scheduled asynchronous event and is outside this
immediate-effect model. -/
def schedule_reconnect (st : WSState) : Option (Nat × WSState) :=
  if st.running then
    let delay :=
      if st.reconnect_count < RECONNECT_DELAYS.length then
        RECONNECT_DELAYS.getD st.reconnect_count 0
      else
        RECONNECT_DELAYS.getLastD 0
    some (delay, { st with reconnect_count := st.reconnect_count + 1 })
  else
    none

/-- State effect of one `_schedule_reconnect` call. -/
def schedule_run (st : WSState) : WSState :=
  match schedule_reconnect st with
  | some du => du.2
  | none => st

/-- Outcome of one `websockets.connect(...)` attempt: success, or an
exception whose `str(err)` is `msg`. -/
inductive AttemptResult where
  | success : AttemptResult
  | failure : String → AttemptResult

/-- The token-refresh collaborator configuration
(`self.token_refresh_callback`): absent, configured and returning a token
or a falsy value, or configured and raising. -/
inductive RefreshCfg where
  | absent : RefreshCfg
  | returns : Option String → RefreshCfg
  | raises : RefreshCfg

/-- Trace of a `connect()` call: final session state, the tokens used by
the successive connection attempts (in order), and the number of
`_schedule_reconnect` calls made. -/
structure ConnectTrace where
  final : WSState
  tokens_used : List String
  schedule_calls : Nat

/-- `connect()` (websocket.py lines 104-166), driven by a script of attempt
outcomes (one per `websockets.connect` call; an exhausted script yields an
empty trace).  On success: running is set, heartbeat-failure and
reconnect-attempt counters reset to 0.  On failure whose message contains
"HTTP 400" with a configured refresh callback returning a token: the token
is replaced, the reconnect count reset to 0, and `connect()` recurses
immediately.  Any other failure (including refresh raising or returning a
falsy token) falls through to one `_schedule_reconnect` call. -/
def connectModel (refresh : RefreshCfg) :
    List AttemptResult → WSState → ConnectTrace
  | [], st => ⟨st, [], 0⟩
  | AttemptResult.success :: _, st =>
    ⟨{ st with running := true, heartbeat_failures := 0, reconnect_count := 0 },
     [st.token], 0⟩
  | AttemptResult.failure msg :: rest, st =>
    let fallthrough : ConnectTrace := ⟨schedule_run st, [st.token], 1⟩
    if containsSub msg "HTTP 400" then
      match refresh with
      | RefreshCfg.returns (some tok) =>
        let retry := connectModel refresh rest
          { st with token := tok, reconnect_count := 0 }
        ⟨retry.final, st.token :: retry.tokens_used, retry.schedule_calls⟩
      | RefreshCfg.returns none => fallthrough
      | RefreshCfg.raises => fallthrough
      | RefreshCfg.absent => fallthrough
    else
      fallthrough

/-- `_heartbeat_loop` (websocket.py lines 168-193), driven by a script of
`_send_heartbeat` outcomes (`true` = send succeeded).  Returns the final
failure counter, the number of `_schedule_reconnect` calls, and how many
scripted sends the loop consumed before ending. -/
def heartbeat_loop : List Bool → Nat → Nat × Nat × Nat
  | [], f => (f, 0, 0)
  | true :: rest, _ =>
    let r := heartbeat_loop rest 0
    (r.1, r.2.1, r.2.2 + 1)
  | false :: rest, f =>
    if f + 1 ≥ MAX_HEARTBEAT_FAILURES then
      (f + 1, 1, 1)
    else
      let r := heartbeat_loop rest (f + 1)
      (r.1, r.2.1, r.2.2 + 1)

/-- Three consecutive failed sends somewhere in the script. -/
def hasThreeConsecFailures : List Bool → Bool
  | false :: false :: false :: _ => true
  | _ :: rest => hasThreeConsecFailures rest
  | [] => false

/-- Envelope-metadata injection of `_handle_message` (websocket.py lines
258-262): `device_id` / `product_id` from the frame envelope are written
into the raw reported dict when present. -/
def injectEnvelope (data r : JDict) : JDict :=
  let r1 := match dictLookup data "device_id" with
            | some v => dictInsert r "device_id" v
            | none => r
  match dictLookup data "product_id" with
  | some v => dictInsert r1 "product_id" v
  | none => r1

/-- `_handle_message` (websocket.py lines 246-275) composed with the
coordinator callback: for a frame shaped `{state: {reported: {...}}}`, the
envelope's `device_id` / `product_id` are written into the raw reported
dict, which is then passed to `handle_websocket_update`; any other frame
leaves the coordinator data untouched (non-dict `state` values make the
Python raise inside the listen loop, also leaving the snapshot unchanged).
Returns the coordinator snapshot afterwards. -/
def handle_message (data : JDict) (coord : Option JDict) : Option JDict :=
  match dictLookup data "state" with
  | some (JVal.vobj s) =>
    match dictLookup s "reported" with
    | some (JVal.vobj r) => coordinator_after coord (injectEnvelope data r)
    | _ => coord
  | _ => coord

/- ===================================================================
   encryption.py — encrypt_command_payload / decrypt_command_payload
   =================================================================== -/

/-- Bytes are naturals; well-formed byte streams have every element < 256. -/
abbrev Bytes := List Nat

/-- UTF-8 encoding of one Unicode scalar value (Python `str.encode("utf-8")`
per character). -/
def utf8EncodeChar (n : Nat) : Bytes :=
  if n < 0x80 then [n]
  else if n < 0x800 then [0xC0 + n / 64, 0x80 + n % 64]
  else if n < 0x10000 then
    [0xE0 + n / 4096, 0x80 + n / 64 % 64, 0x80 + n % 64]
  else
    [0xF0 + n / 262144, 0x80 + n / 4096 % 64, 0x80 + n / 64 % 64,
     0x80 + n % 64]

/-- Python `s.encode("utf-8")` as a byte list. -/
def utf8Encode (s : String) : Bytes :=
  (s.toList.map (fun c => utf8EncodeChar c.toNat)).flatten

/-- One step of UTF-8 decoding: given the leading byte and the remaining
bytes, the decoded scalar value and the bytes after its sequence; `none` on
a truncated multi-byte sequence. -/
def utf8DecodeOne (b : Nat) (rest : Bytes) : Option (Nat × Bytes) :=
  if b < 0x80 then some (b, rest)
  else if b < 0xE0 then
    match rest with
    | b2 :: rest2 => some ((b - 0xC0) * 64 + (b2 - 0x80), rest2)
    | [] => none
  else if b < 0xF0 then
    match rest with
    | b2 :: b3 :: rest3 =>
      some ((b - 0xE0) * 4096 + (b2 - 0x80) * 64 + (b3 - 0x80), rest3)
    | _ => none
  else
    match rest with
    | b2 :: b3 :: b4 :: rest4 =>
      some ((b - 0xF0) * 262144 + (b2 - 0x80) * 4096 + (b3 - 0x80) * 64 +
        (b4 - 0x80), rest4)
    | _ => none

/-- Fuel-indexed UTF-8 decoding loop; the fuel only bounds the number of
decoded characters (each consumes at least one byte), so any fuel at least
the byte length gives the decoder's value. -/
def utf8DecodeAux : Nat → Bytes → Option (List Char)
  | _, [] => some []
  | 0, _ :: _ => none
  | fuel + 1, b :: rest =>
    match utf8DecodeOne b rest with
    | some nr => (utf8DecodeAux fuel nr.2).map (fun cs => Char.ofNat nr.1 :: cs)
    | none => none

/-- UTF-8 decoding (Python `bytes.decode("utf-8")`); `none` on a truncated
multi-byte sequence. -/
def utf8Decode (l : Bytes) : Option (List Char) := utf8DecodeAux l.length l

/-- PKCS7 padding to the 16-byte AES block size
(`Crypto.Util.Padding.pad(data, AES.block_size)`). -/
def padPKCS7 (l : Bytes) : Bytes :=
  let n := 16 - l.length % 16
  l ++ List.replicate n n

/-- PKCS7 unpadding (`Crypto.Util.Padding.unpad`); `none` models the
`ValueError` raised on invalid padding. -/
def unpadPKCS7 (l : Bytes) : Option Bytes :=
  match l.getLast? with
  | none => none
  | some n =>
    if n = 0 ∨ 16 < n ∨ l.length < n then none
    else if (l.drop (l.length - n)).all (fun x => x == n) then
      some (l.take (l.length - n))
    else none

/-- Split a byte stream into consecutive 16-byte blocks. -/
def chunk16 (l : Bytes) : List Bytes :=
  if l.isEmpty then [] else l.take 16 :: chunk16 (l.drop 16)
termination_by l.length
decreasing_by
  cases l with
  | nil => simp_all [List.isEmpty]
  | cons a t => simp only [List.length_drop]; simp; omega

/-- Byte-wise XOR of two equal-length blocks. -/
def xorBytes (a b : Bytes) : Bytes := List.zipWith Nat.xor a b

/-- CBC-mode encryption over an abstract 16-byte block permutation `E`
(the `cipher.encrypt` of `AES.new(key, AES.MODE_CBC, iv)` chains exactly
this way): each plaintext block is XORed with the previous ciphertext
block (initially the IV) before the block cipher is applied. -/
def cbcEncBlocks (E : Bytes → Bytes) : Bytes → List Bytes → List Bytes
  | _, [] => []
  | prev, b :: rest =>
    let c := E (xorBytes prev b)
    c :: cbcEncBlocks E c rest

/-- CBC-mode decryption over an abstract block inverse `D`. -/
def cbcDecBlocks (D : Bytes → Bytes) : Bytes → List Bytes → List Bytes
  | _, [] => []
  | prev, c :: rest => xorBytes prev (D c) :: cbcDecBlocks D c rest

/-- The base64 alphabet. -/
def b64Alphabet : List Char :=
  "ABCDEFGHIJKLMNOPQRSTUVWXYZabcdefghijklmnopqrstuvwxyz0123456789+/".toList

/-- Character for a 6-bit group. -/
def b64c (n : Nat) : Char := b64Alphabet.getD n '?'

/-- Index of a base64 character in the alphabet. -/
def b64i (c : Char) : Nat := b64Alphabet.indexOf c

/-- `base64.b64encode` over byte triples, with `=` padding. -/
def b64encode : Bytes → List Char
  | a :: b :: c :: rest =>
    b64c (a / 4) :: b64c (a % 4 * 16 + b / 16) :: b64c (b % 16 * 4 + c / 64) ::
      b64c (c % 64) :: b64encode rest
  | [a, b] => [b64c (a / 4), b64c (a % 4 * 16 + b / 16), b64c (b % 16 * 4), '=']
  | [a] => [b64c (a / 4), b64c (a % 4 * 16), '=', '=']
  | [] => []

/-- `base64.b64decode` over 4-character groups, honouring `=` padding. -/
def b64decode : List Char → Bytes
  | c1 :: c2 :: c3 :: c4 :: rest =>
    if c3 = '=' then [b64i c1 * 4 + b64i c2 / 16]
    else if c4 = '=' then
      [b64i c1 * 4 + b64i c2 / 16, b64i c2 % 16 * 16 + b64i c3 / 4]
    else
      (b64i c1 * 4 + b64i c2 / 16) :: (b64i c2 % 16 * 16 + b64i c3 / 4) ::
        (b64i c3 % 4 * 64 + b64i c4) :: b64decode rest
  | _ => []

/-- The fixed IV hardcoded in `encrypt_command_payload`
(encryption.py lines 70-72). -/
def AES_IV : Bytes :=
  [56, 110, 58, 168, 76, 255, 94, 159, 237, 215, 171, 181, 150, 40, 74, 166]

/-- The derived AES key (encryption.py lines 74-80): the first 32 hex
characters of `sha256(sign + "," + app_secret)` re-encoded as UTF-8 bytes.
`sha` is the external `hashlib.sha256(...).hexdigest()` collaborator,
mapping the key-material bytes to the hex digest string. -/
def deriveKey (sha : Bytes → String) (sign app_secret : String) : Bytes :=
  utf8Encode (((sha (utf8Encode (sign ++ "," ++ app_secret))).take 32))

/-- `encrypt_command_payload(sign, app_secret, plaintext)`
(encryption.py lines 29-92), parameterized by the external AES block
cipher `E` (keyed, one 16-byte block) and SHA-256 hex digest `sha`:
derive the key, PKCS7-pad the UTF-8 plaintext, CBC-encrypt with the fixed
IV, and return base64(IV + ciphertext) as a string. -/
def encrypt_command_payload (E : Bytes → Bytes → Bytes)
    (sha : Bytes → String) (sign app_secret plaintext : String) : String :=
  let key := deriveKey sha sign app_secret
  let padded := padPKCS7 (utf8Encode plaintext)
  let ct := (cbcEncBlocks (E key) AES_IV (chunk16 padded)).flatten
  String.mk (b64encode (AES_IV ++ ct))

/-- `decrypt_command_payload(sign, app_secret, ciphertext)`
(encryption.py lines 95-140), parameterized by the external AES block
inverse `D` and `sha`: derive the same key, base64-decode, split off the
16-byte IV, CBC-decrypt, unpad, and UTF-8 decode.  `none` models the
exceptions raised on invalid padding or undecodable bytes. -/
def decrypt_command_payload (D : Bytes → Bytes → Bytes)
    (sha : Bytes → String) (sign app_secret ciphertext : String) :
    Option String :=
  let key := deriveKey sha sign app_secret
  let data := b64decode ciphertext.toList
  let iv := data.take 16
  let ct := data.drop 16
  let padded := (cbcDecBlocks (D key) iv (chunk16 ct)).flatten
  match unpadPKCS7 padded with
  | some pt =>
    match utf8Decode pt with
    | some cs => some (String.mk cs)
    | none => none
  | none => none

/- ===================================================================
   Dictionary lemmas
   =================================================================== -/

theorem dictLookup_append (a b : JDict) (k : String) :
    dictLookup (a ++ b) k = (dictLookup a k).or (dictLookup b k) := by
  unfold dictLookup
  rw [List.find?_append]
  cases a.find? (fun kv => kv.1 == k) <;> simp [Option.or]

theorem find?_filter_of_imp (d : JDict) (k : String)
    (p : String × JVal → Bool)
    (h : ∀ kv ∈ d, kv.1 = k → p kv = true) :
    (d.filter p).find? (fun kv => kv.1 == k) =
      d.find? (fun kv => kv.1 == k) := by
  induction d with
  | nil => rfl
  | cons kv d ih =>
    by_cases hp : p kv
    · rw [List.filter_cons_of_pos hp]
      by_cases hk : kv.1 = k
      · rw [List.find?_cons_of_pos _ (by simp [hk]),
          List.find?_cons_of_pos _ (by simp [hk])]
      · rw [List.find?_cons_of_neg _ (by simp [hk]),
          List.find?_cons_of_neg _ (by simp [hk])]
        exact ih (fun x hx => h x (List.mem_cons_of_mem _ hx))
    · rw [List.filter_cons_of_neg hp]
      have hk : ¬ kv.1 = k := fun hkk =>
        hp (h kv (List.mem_cons_self _ _) hkk)
      rw [List.find?_cons_of_neg _ (by simp [hk])]
      exact ih (fun x hx => h x (List.mem_cons_of_mem _ hx))

theorem dictLookup_eq_none_of_keys (d : JDict) (k : String)
    (h : ∀ kv ∈ d, kv.1 ≠ k) : dictLookup d k = none := by
  unfold dictLookup
  rw [List.find?_eq_none.mpr]
  intro x hx
  simpa using h x hx

theorem dictLookup_filter_of_imp (d : JDict) (k : String)
    (p : String × JVal → Bool)
    (h : ∀ kv ∈ d, kv.1 = k → p kv = true) :
    dictLookup (d.filter p) k = dictLookup d k := by
  unfold dictLookup
  rw [find?_filter_of_imp d k p h]

theorem dictLookup_merge (d n : JDict) (k : String) :
    dictLookup (dictMerge d n) k = (dictLookup n k).or (dictLookup d k) := by
  unfold dictMerge
  rw [dictLookup_append]
  cases hn : dictLookup n k with
  | some v =>
    have hkeys :
        ∀ kv ∈ d.filter (fun kv => (dictLookup n kv.1).isNone), kv.1 ≠ k := by
      intro x hx hxk
      rw [List.mem_filter] at hx
      have h2 := hx.2
      rw [hxk, hn] at h2
      simp at h2
    rw [dictLookup_eq_none_of_keys _ k hkeys]
    rfl
  | none =>
    have himp :
        ∀ kv ∈ d, kv.1 = k →
          (fun kv : String × JVal => (dictLookup n kv.1).isNone) kv = true := by
      intro kv _ hkvk
      simp only
      rw [hkvk, hn]
      rfl
    rw [dictLookup_filter_of_imp d k _ himp]
    cases dictLookup d k <;> rfl

/- ===================================================================
   C1 — delta merge is additive, never destructive
   =================================================================== -/

/-- C1: for every delta containing at least one allow-listed key and every
prior snapshot, `handle_websocket_update` notifies with a merged snapshot in
which every previously-known key remains present, keys named in the
normalized delta take the delta's value, keys not named keep their prior
value, and an absent prior snapshot behaves exactly like an empty one. -/
theorem C1_merge_additive (st d : JDict)
    (h : has_meaningful_change st = true) :
    (∃ m, handle_websocket_update (some d) st = some m ∧
      (∀ k, (dictLookup d k).isSome → (dictLookup m k).isSome) ∧
      (∀ k v, dictLookup (normalizeDelta st) k = some v →
        dictLookup m k = some v) ∧
      (∀ k, dictLookup (normalizeDelta st) k = none →
        dictLookup m k = dictLookup d k)) ∧
    handle_websocket_update none st = handle_websocket_update (some []) st := by
  constructor
  · by_cases hd : d.isEmpty
    · refine ⟨normalizeDelta st, ?_, ?_, ?_, ?_⟩
      · simp [handle_websocket_update, h, hd]
      · intro k hk
        rw [List.isEmpty_iff.mp hd] at hk
        simp [dictLookup, List.find?] at hk
      · intro k v hv; exact hv
      · intro k hk
        rw [List.isEmpty_iff.mp hd, hk]
        rfl
    · refine ⟨dictMerge d (normalizeDelta st), ?_, ?_, ?_, ?_⟩
      · simp [handle_websocket_update, h, hd]
      · intro k hk
        rw [dictLookup_merge]
        cases dictLookup (normalizeDelta st) k <;> simp_all [Option.or]
      · intro k v hv
        rw [dictLookup_merge, hv]
        rfl
      · intro k hk
        rw [dictLookup_merge, hk]
        cases dictLookup d k <;> rfl
  · simp [handle_websocket_update, h]

/-- Witness for C1 at the spec's end-to-end example: snapshot
`{power_state: 1, heater_state: 0}` merged with delta
`{heater_state: 3, B0: 1}`. -/
theorem C1_merge_additive_witness :
    has_meaningful_change
      [("heater_state", JVal.vint 3), ("B0", JVal.vint 1)] = true ∧
    ((∃ m, handle_websocket_update
        (some [("power_state", JVal.vint 1), ("heater_state", JVal.vint 0)])
        [("heater_state", JVal.vint 3), ("B0", JVal.vint 1)] = some m ∧
      (∀ k, (dictLookup
          [("power_state", JVal.vint 1), ("heater_state", JVal.vint 0)] k).isSome →
        (dictLookup m k).isSome) ∧
      (∀ k v, dictLookup (normalizeDelta
          [("heater_state", JVal.vint 3), ("B0", JVal.vint 1)]) k = some v →
        dictLookup m k = some v) ∧
      (∀ k, dictLookup (normalizeDelta
          [("heater_state", JVal.vint 3), ("B0", JVal.vint 1)]) k = none →
        dictLookup m k = dictLookup
          [("power_state", JVal.vint 1), ("heater_state", JVal.vint 0)] k)) ∧
     handle_websocket_update none
        [("heater_state", JVal.vint 3), ("B0", JVal.vint 1)] =
      handle_websocket_update (some [])
        [("heater_state", JVal.vint 3), ("B0", JVal.vint 1)]) :=
  ⟨rfl, C1_merge_additive
    [("heater_state", JVal.vint 3), ("B0", JVal.vint 1)]
    [("power_state", JVal.vint 1), ("heater_state", JVal.vint 0)] rfl⟩

/- ===================================================================
   C2 — noise-only deltas are discarded entirely
   =================================================================== -/

/-- C2: a delta whose keys are all outside the allow-list is discarded:
`handle_websocket_update` performs no merge and no notification, and the
coordinator's snapshot is unchanged. -/
theorem C2_noise_noop (data : Option JDict) (state : JDict)
    (h : state.all (fun kv => !user_facing_fields.contains kv.1) = true) :
    handle_websocket_update data state = none ∧
    coordinator_after data state = data := by
  have hm : has_meaningful_change state = false := by
    unfold has_meaningful_change
    rw [List.any_eq_false]
    intro kv hkv
    have := List.all_eq_true.mp h kv hkv
    simpa using this
  constructor
  · simp [handle_websocket_update, hm]
  · simp [coordinator_after, handle_websocket_update, hm]

/-- Witness for C2: an internal-telemetry-only delta `{B0: 1, P2: 7}`
against a nonempty snapshot. -/
theorem C2_noise_noop_witness :
    ([("B0", JVal.vint 1), ("P2", JVal.vint 7)] : JDict).all
      (fun kv => !user_facing_fields.contains kv.1) = true ∧
    (handle_websocket_update (some [("power_state", JVal.vint 1)])
        [("B0", JVal.vint 1), ("P2", JVal.vint 7)] = none ∧
      coordinator_after (some [("power_state", JVal.vint 1)])
        [("B0", JVal.vint 1), ("P2", JVal.vint 7)] =
        some [("power_state", JVal.vint 1)]) :=
  ⟨rfl, C2_noise_noop (some [("power_state", JVal.vint 1)])
    [("B0", JVal.vint 1), ("P2", JVal.vint 7)] rfl⟩

/- ===================================================================
   Lookup lemmas for the normalizers
   =================================================================== -/

theorem dictLookup_deltaEntry (s : JDict) (r c k : String) :
    dictLookup (deltaEntry s r c) k =
      if c = k then dictLookup s r else none := by
  unfold deltaEntry
  cases h : dictLookup s r with
  | none => simp [dictLookup, List.find?]
  | some v =>
    by_cases hck : c = k
    · subst hck
      simp [dictLookup, List.find?]
    · have hb : (c == k) = false := beq_eq_false_iff_ne.mpr hck
      simp [dictLookup, List.find?, hb, hck]

theorem dictLookup_deltaEntrySentinel (s : JDict) (kk k : String) :
    dictLookup (deltaEntrySentinel s kk) k =
      if kk = k then
        (dictLookup s kk).map (fun v => if isEmptyStr v then JVal.vint 0 else v)
      else none := by
  unfold deltaEntrySentinel
  cases h : dictLookup s kk with
  | none => simp [dictLookup, List.find?]
  | some v =>
    by_cases hck : kk = k
    · subst hck
      simp [dictLookup, List.find?]
    · have hb : (kk == k) = false := beq_eq_false_iff_ne.mpr hck
      simp [dictLookup, List.find?, hb, hck]

theorem dictLookup_normalizeDelta_warning (st : JDict) :
    dictLookup (normalizeDelta st) "warning" =
      (dictLookup st "warning").map
        (fun v => if isEmptyStr v then JVal.vint 0 else v) := by
  simp [normalizeDelta, dictLookup_append, dictLookup_deltaEntry,
    dictLookup_deltaEntrySentinel]

theorem dictLookup_normalizeDelta_error_code (st : JDict) :
    dictLookup (normalizeDelta st) "error_code" =
      (dictLookup st "error_code").map
        (fun v => if isEmptyStr v then JVal.vint 0 else v) := by
  simp [normalizeDelta, dictLookup_append, dictLookup_deltaEntry,
    dictLookup_deltaEntrySentinel]

theorem dictLookup_mapStatus_warning (ds : JDict) :
    dictLookup (mapStatus ds) "warning" =
      some (if isEmptyStr (pyGet ds "warning") then JVal.vint 0
            else pyGet ds "warning") := by
  simp [mapStatus, dictLookup, List.find?]

theorem dictLookup_mapStatus_error_code (ds : JDict) :
    dictLookup (mapStatus ds) "error_code" =
      some (if isEmptyStr (pyGet ds "error_code") then JVal.vint 0
            else pyGet ds "error_code") := by
  simp [mapStatus, dictLookup, List.find?]

theorem find?_eq_none_of_dictLookup {d : JDict} {k : String}
    (h : dictLookup d k = none) :
    d.find? (fun kv => kv.1 == k) = none := by
  unfold dictLookup at h
  cases hf : d.find? (fun kv => kv.1 == k) <;> rw [hf] at h <;> simp_all

theorem find?_eq_some_of_dictLookup {d : JDict} {k : String} {v : JVal}
    (h : dictLookup d k = some v) :
    d.find? (fun kv => kv.1 == k) = some (k, v) := by
  unfold dictLookup at h
  cases hf : d.find? (fun kv => kv.1 == k) with
  | none => rw [hf] at h; cases h
  | some kv =>
    rw [hf] at h
    have hkey := List.find?_some hf
    have hk : kv.1 = k := by simpa using hkey
    cases kv
    simp_all

theorem isEmptyStr_eq_false {v : JVal} (h : v ≠ JVal.vstr "") :
    isEmptyStr v = false := by
  cases v <;> simp [isEmptyStr]
  intro hs
  exact h (by rw [hs])

/- ===================================================================
   C8 — empty-string sentinel normalization on both paths
   =================================================================== -/

/-- C8: on both the push-delta path (`normalizeDelta`, from
`handle_websocket_update`) and the REST path (`mapStatus`, from
`get_status`), an empty-string `warning` / `error_code` value is coerced to
integer 0 and every other value of those keys passes through unchanged. -/
theorem C8_sentinel_normalization (st ds : JDict) (v : JVal) :
    (dictLookup st "warning" = some (JVal.vstr "") →
      dictLookup (normalizeDelta st) "warning" = some (JVal.vint 0)) ∧
    (v ≠ JVal.vstr "" → dictLookup st "warning" = some v →
      dictLookup (normalizeDelta st) "warning" = some v) ∧
    (dictLookup st "error_code" = some (JVal.vstr "") →
      dictLookup (normalizeDelta st) "error_code" = some (JVal.vint 0)) ∧
    (v ≠ JVal.vstr "" → dictLookup st "error_code" = some v →
      dictLookup (normalizeDelta st) "error_code" = some v) ∧
    (pyGet ds "warning" = JVal.vstr "" →
      dictLookup (mapStatus ds) "warning" = some (JVal.vint 0)) ∧
    (pyGet ds "warning" ≠ JVal.vstr "" →
      dictLookup (mapStatus ds) "warning" = some (pyGet ds "warning")) ∧
    (pyGet ds "error_code" = JVal.vstr "" →
      dictLookup (mapStatus ds) "error_code" = some (JVal.vint 0)) ∧
    (pyGet ds "error_code" ≠ JVal.vstr "" →
      dictLookup (mapStatus ds) "error_code" = some (pyGet ds "error_code")) := by
  refine ⟨?_, ?_, ?_, ?_, ?_, ?_, ?_, ?_⟩
  · intro h
    rw [dictLookup_normalizeDelta_warning, h]
    simp [isEmptyStr]
  · intro hv h
    rw [dictLookup_normalizeDelta_warning, h]
    simp [isEmptyStr_eq_false hv]
  · intro h
    rw [dictLookup_normalizeDelta_error_code, h]
    simp [isEmptyStr]
  · intro hv h
    rw [dictLookup_normalizeDelta_error_code, h]
    simp [isEmptyStr_eq_false hv]
  · intro h
    rw [dictLookup_mapStatus_warning, h]
    simp [isEmptyStr]
  · intro h
    rw [dictLookup_mapStatus_warning, isEmptyStr_eq_false h]
    simp
  · intro h
    rw [dictLookup_mapStatus_error_code, h]
    simp [isEmptyStr]
  · intro h
    rw [dictLookup_mapStatus_error_code, isEmptyStr_eq_false h]
    simp

/-- Witness for C8 at the spec's examples: `warning = ""` maps to 0 and an
integer `error_code = 3` passes through, on both paths. -/
theorem C8_sentinel_normalization_witness :
    dictLookup (normalizeDelta
      [("warning", JVal.vstr ""), ("error_code", JVal.vint 3)]) "warning" =
      some (JVal.vint 0) ∧
    dictLookup (normalizeDelta
      [("warning", JVal.vstr ""), ("error_code", JVal.vint 3)]) "error_code" =
      some (JVal.vint 3) ∧
    dictLookup (mapStatus
      [("warning", JVal.vstr ""), ("error_code", JVal.vint 3)]) "warning" =
      some (JVal.vint 0) ∧
    dictLookup (mapStatus
      [("warning", JVal.vstr ""), ("error_code", JVal.vint 3)]) "error_code" =
      some (pyGet [("warning", JVal.vstr ""), ("error_code", JVal.vint 3)]
        "error_code") :=
  have T := C8_sentinel_normalization
    [("warning", JVal.vstr ""), ("error_code", JVal.vint 3)]
    [("warning", JVal.vstr ""), ("error_code", JVal.vint 3)] (JVal.vint 3)
  ⟨T.1 rfl,
   T.2.2.2.1 (fun h => JVal.noConfusion h) rfl,
   T.2.2.2.2.1 rfl,
   T.2.2.2.2.2.2.2 (fun h => JVal.noConfusion h)⟩

/- ===================================================================
   C3 — get_status unwrapping and the complete canonical snapshot
   =================================================================== -/

/-- C3: `get_status` unwraps the payload through `state.reported` when
present, else `state.desired`, else uses the data as-is, and the resulting
snapshot has exactly the sixteen canonical keys, binding `None` for any raw
key absent upstream and passing the present raw values through (so unknown
upstream keys are dropped). -/
theorem C3_get_status (raw s rr dd ds : JDict) (k rawk : String) (v : JVal) :
    (dictLookup raw "state" = some (JVal.vobj s) →
      dictLookup s "reported" = some (JVal.vobj rr) →
      get_status_model raw = some (mapStatus rr)) ∧
    (dictLookup raw "state" = some (JVal.vobj s) →
      dictLookup s "reported" = none →
      dictLookup s "desired" = some (JVal.vobj dd) →
      get_status_model raw = some (mapStatus dd)) ∧
    (dictLookup raw "state" = none →
      get_status_model raw = some (mapStatus raw)) ∧
    ((mapStatus ds).map Prod.fst = canonicalKeys) ∧
    ((k, rawk) ∈ keyRenames → dictLookup ds rawk = none →
      dictLookup (mapStatus ds) k = some JVal.vnull) ∧
    ((k, rawk) ∈ keyRenames → k ≠ "warning" → k ≠ "error_code" →
      dictLookup ds rawk = some v →
      dictLookup (mapStatus ds) k = some v) := by
  refine ⟨?_, ?_, ?_, ?_, ?_, ?_⟩
  · intro h1 h2
    simp [get_status_model, h1, h2]
  · intro h1 h2 h3
    simp [get_status_model, h1, h2, h3]
  · intro h1
    simp [get_status_model, h1]
  · rfl
  · intro hmem hnone
    simp only [keyRenames, List.mem_cons, List.not_mem_nil, or_false,
      Prod.mk.injEq] at hmem
    rcases hmem with hm|hm|hm|hm|hm|hm|hm|hm|hm|hm|hm|hm|hm|hm|hm|hm <;>
      obtain ⟨rfl, rfl⟩ := hm <;>
      simp [mapStatus, dictLookup, List.find?, pyGet, isEmptyStr,
        find?_eq_none_of_dictLookup hnone]
  · intro hmem hw he hv
    simp only [keyRenames, List.mem_cons, List.not_mem_nil, or_false,
      Prod.mk.injEq] at hmem
    rcases hmem with hm|hm|hm|hm|hm|hm|hm|hm|hm|hm|hm|hm|hm|hm|hm|hm <;>
      obtain ⟨rfl, rfl⟩ := hm <;>
      first
      | exact absurd rfl hw
      | exact absurd rfl he
      | simp [mapStatus, dictLookup, List.find?, pyGet,
          find?_eq_some_of_dictLookup hv]

/-- Witness for C3 on a concrete reported-state response carrying one known
and one unknown key. -/
theorem C3_get_status_witness :
    get_status_model
      [("state", JVal.vobj
        [("reported", JVal.vobj
          [("power_state", JVal.vint 1), ("B0", JVal.vint 4)])])] =
      some (mapStatus
        [("power_state", JVal.vint 1), ("B0", JVal.vint 4)]) ∧
    (mapStatus [("power_state", JVal.vint 1), ("B0", JVal.vint 4)]).map
      Prod.fst = canonicalKeys ∧
    dictLookup (mapStatus
      [("power_state", JVal.vint 1), ("B0", JVal.vint 4)]) "heater_state" =
      some JVal.vnull ∧
    dictLookup (mapStatus
      [("power_state", JVal.vint 1), ("B0", JVal.vint 4)]) "power_state" =
      some (JVal.vint 1) :=
  have T := C3_get_status
    [("state", JVal.vobj
      [("reported", JVal.vobj
        [("power_state", JVal.vint 1), ("B0", JVal.vint 4)])])]
    [("reported", JVal.vobj
      [("power_state", JVal.vint 1), ("B0", JVal.vint 4)])]
    [("power_state", JVal.vint 1), ("B0", JVal.vint 4)] []
    [("power_state", JVal.vint 1), ("B0", JVal.vint 4)]
    "heater_state" "heater_state" (JVal.vint 1)
  have T2 := C3_get_status [] [] [] []
    [("power_state", JVal.vint 1), ("B0", JVal.vint 4)]
    "power_state" "power_state" (JVal.vint 1)
  ⟨T.1 rfl rfl, T.2.2.2.1, T.2.2.2.2.1 (by decide) rfl,
   T2.2.2.2.2.2 (by decide) (by decide) (by decide) rfl⟩

/- ===================================================================
   C4 — set_state v2 failure falls back to exactly one v1 call
   =================================================================== -/

/-- C4: when the v2 attempt raises or responds with a non-zero code,
`set_state` makes exactly one v1 call carrying the equivalent unencrypted
desired-state payload for the same key and value, and returns the v1
response (the v2 failure is never surfaced); a v2 success is returned
directly with no v1 call. -/
theorem C4_set_state_fallback (did pid key : String) (value : JVal)
    (v2resp v1resp : JDict) :
    (set_state_model did pid key value true V2Outcome.raises v1resp =
      ⟨[v1Payload did pid key (coercePyBool value)], v1resp⟩) ∧
    (pyEqZero (dictLookup v2resp "code") = false →
      set_state_model did pid key value true (V2Outcome.responds v2resp)
        v1resp =
        ⟨[v1Payload did pid key (coercePyBool value)], v1resp⟩) ∧
    (pyEqZero (dictLookup v2resp "code") = true →
      set_state_model did pid key value true (V2Outcome.responds v2resp)
        v1resp = ⟨[], v2resp⟩) := by
  refine ⟨rfl, ?_, ?_⟩
  · intro h
    simp [set_state_model, h]
  · intro h
    simp [set_state_model, h]

/-- Witness for C4: a v2 response with code 1 falls back to one v1 call. -/
theorem C4_set_state_fallback_witness :
    pyEqZero (dictLookup [("code", JVal.vint 1)] "code") = false ∧
    set_state_model "dev" "prod" "power_state" (JVal.vint 1) true
      (V2Outcome.responds [("code", JVal.vint 1)]) [("code", JVal.vint 0)] =
      ⟨[v1Payload "dev" "prod" "power_state"
          (coercePyBool (JVal.vint 1))], [("code", JVal.vint 0)]⟩ :=
  ⟨rfl, (C4_set_state_fallback "dev" "prod" "power_state" (JVal.vint 1)
    [("code", JVal.vint 1)] [("code", JVal.vint 0)]).2.1 rfl⟩

/- ===================================================================
   C7 — reconnect backoff schedule
   =================================================================== -/

/-- C7: `_schedule_reconnect` maps attempt counts 0..5 to delays
3, 6, 12, 24, 48, 60 and every count ≥ 5 to 60, increments the attempt
count whenever backoff is scheduled, and is a complete no-op when the
running flag is false. -/
theorem C7_backoff_schedule (st : WSState) :
    (st.running = true →
      schedule_reconnect st =
        some ((match st.reconnect_count with
               | 0 => 3 | 1 => 6 | 2 => 12 | 3 => 24 | 4 => 48 | _ => 60),
              { st with reconnect_count := st.reconnect_count + 1 })) ∧
    (st.running = false → schedule_reconnect st = none) := by
  obtain ⟨tok, run, hb, rc⟩ := st
  constructor
  · intro h
    subst h
    rcases rc with _ | _ | _ | _ | _ | rc
    · rfl
    · rfl
    · rfl
    · rfl
    · rfl
    · rcases rc with _ | rc
      · rfl
      · simp only [schedule_reconnect, RECONNECT_DELAYS, if_true]
        norm_num
  · intro h
    subst h
    rfl

/-- Witness for C7 at attempt count 7 (clamped to the 60s delay). -/
theorem C7_backoff_schedule_witness :
    schedule_reconnect ⟨"tok", true, 0, 7⟩ =
      some (60, { token := "tok", running := true, heartbeat_failures := 0,
                  reconnect_count := 8 }) :=
  (C7_backoff_schedule ⟨"tok", true, 0, 7⟩).1 rfl

/- ===================================================================
   C5 — connect HTTP 400 recovery
   =================================================================== -/

/-- C5: a `connect()` failure whose message contains "HTTP 400" with a
configured refresh callback returning a new token performs exactly one
immediate retry with the refreshed token and the reconnect count reset to 0
(concretely, when that retry succeeds the trace is two attempts, no backoff
scheduling); without a refresh callback the failure makes exactly one
`_schedule_reconnect` call and no retry. -/
theorem C5_connect_token_refresh (msg : String) (rest : List AttemptResult)
    (st : WSState) (tok : String)
    (h : containsSub msg "HTTP 400" = true) :
    (connectModel (RefreshCfg.returns (some tok))
        (AttemptResult.failure msg :: rest) st =
      ⟨(connectModel (RefreshCfg.returns (some tok)) rest
          { st with token := tok, reconnect_count := 0 }).final,
       st.token :: (connectModel (RefreshCfg.returns (some tok)) rest
          { st with token := tok, reconnect_count := 0 }).tokens_used,
       (connectModel (RefreshCfg.returns (some tok)) rest
          { st with token := tok, reconnect_count := 0 }).schedule_calls⟩) ∧
    (connectModel (RefreshCfg.returns (some tok))
        (AttemptResult.failure msg :: AttemptResult.success :: rest) st =
      ⟨⟨tok, true, 0, 0⟩, [st.token, tok], 0⟩) ∧
    (connectModel RefreshCfg.absent (AttemptResult.failure msg :: rest) st =
      ⟨schedule_run st, [st.token], 1⟩) := by
  obtain ⟨t, r, hb, rc⟩ := st
  refine ⟨?_, ?_, ?_⟩
  · simp [connectModel, h]
  · simp [connectModel, h]
  · simp [connectModel, h]

/-- Witness for C5 on a concrete HTTP 400 failure followed by a successful
retry. -/
theorem C5_connect_token_refresh_witness :
    containsSub "server rejected WebSocket connection: HTTP 400"
      "HTTP 400" = true ∧
    connectModel (RefreshCfg.returns (some "fresh"))
      [AttemptResult.failure "server rejected WebSocket connection: HTTP 400",
       AttemptResult.success] ⟨"stale", false, 1, 4⟩ =
      ⟨⟨"fresh", true, 0, 0⟩, ["stale", "fresh"], 0⟩ :=
  ⟨by decide,
   (C5_connect_token_refresh
     "server rejected WebSocket connection: HTTP 400" []
     ⟨"stale", false, 1, 4⟩ "fresh" (by decide)).2.1⟩

/- ===================================================================
   C6 — heartbeat failure counting and reconnect trigger
   =================================================================== -/

theorem heartbeat_sched_le_one (s : List Bool) (f : Nat) :
    (heartbeat_loop s f).2.1 ≤ 1 := by
  induction s generalizing f with
  | nil => simp [heartbeat_loop]
  | cons b rest ih =>
    cases b with
    | true => simpa [heartbeat_loop] using ih 0
    | false =>
      by_cases h3 : f + 1 ≥ MAX_HEARTBEAT_FAILURES
      · simp [heartbeat_loop, h3]
      · simpa [heartbeat_loop, h3] using ih (f + 1)

theorem heartbeat_sched_iff (s : List Bool) :
    ∀ f, f < 3 →
      ((heartbeat_loop s f).2.1 = 1 ↔
        hasThreeConsecFailures (List.replicate f false ++ s) = true) := by
  induction s with
  | nil =>
    intro f hf
    interval_cases f <;>
      simp [heartbeat_loop, hasThreeConsecFailures, List.replicate]
  | cons b rest ih =>
    intro f hf
    cases b with
    | true =>
      have h0 := ih 0 (by omega)
      have hrhs :
          hasThreeConsecFailures (List.replicate f false ++ true :: rest) =
            hasThreeConsecFailures rest := by
        interval_cases f <;>
          simp [List.replicate, hasThreeConsecFailures]
      rw [hrhs]
      simpa [heartbeat_loop] using h0
    | false =>
      by_cases h3 : f + 1 ≥ MAX_HEARTBEAT_FAILURES
      · have hf2 : f = 2 := by
          simp [MAX_HEARTBEAT_FAILURES] at h3
          omega
        subst hf2
        simp [heartbeat_loop, MAX_HEARTBEAT_FAILURES, List.replicate,
          hasThreeConsecFailures]
      · have hlt : f + 1 < 3 := by
          simp [MAX_HEARTBEAT_FAILURES] at h3
          omega
        have hnext := ih (f + 1) hlt
        have hlist :
            List.replicate f false ++ false :: rest =
              List.replicate (f + 1) false ++ rest := by
          interval_cases f <;> simp [List.replicate]
        rw [hlist]
        simpa [heartbeat_loop, h3] using hnext

/-- C6: in the heartbeat loop each failed send increments the failure
counter and each success resets it to 0; starting from a fresh connection
(counter 0), reconnect scheduling happens at most once, it happens exactly
when the script contains three consecutive failures, and the third
consecutive failure schedules exactly one reconnect and terminates the loop
immediately (no further sends are consumed, whatever follows). -/
theorem C6_heartbeat_failures (s rest : List Bool) (f : Nat) :
    ((heartbeat_loop s 0).2.1 ≤ 1) ∧
    ((heartbeat_loop s 0).2.1 = 1 ↔ hasThreeConsecFailures s = true) ∧
    (heartbeat_loop (true :: s) f =
      ((heartbeat_loop s 0).1, (heartbeat_loop s 0).2.1,
        (heartbeat_loop s 0).2.2 + 1)) ∧
    (f + 1 < MAX_HEARTBEAT_FAILURES →
      heartbeat_loop (false :: s) f =
        ((heartbeat_loop s (f + 1)).1, (heartbeat_loop s (f + 1)).2.1,
          (heartbeat_loop s (f + 1)).2.2 + 1)) ∧
    (heartbeat_loop (false :: rest) 2 = (3, 1, 1)) := by
  refine ⟨heartbeat_sched_le_one s 0, ?_, ?_, ?_, ?_⟩
  · simpa using heartbeat_sched_iff s 0 (by omega)
  · simp [heartbeat_loop]
  · intro hlt
    have h3 : ¬ f + 1 ≥ MAX_HEARTBEAT_FAILURES := by omega
    simp [heartbeat_loop, h3]
  · simp [heartbeat_loop, MAX_HEARTBEAT_FAILURES]

/-- Witness for C6: two failures, a success, then three failures — the
counter resets on the success and the third consecutive failure triggers
the single reconnect scheduling. -/
theorem C6_heartbeat_failures_witness :
    (heartbeat_loop [false, false, true, false, false, false] 0).2.1 = 1 ∧
    1 + 1 < MAX_HEARTBEAT_FAILURES ∧
    heartbeat_loop [false, false, false] 1 =
      ((heartbeat_loop [false, false] 2).1,
        (heartbeat_loop [false, false] 2).2.1,
        (heartbeat_loop [false, false] 2).2.2 + 1) :=
  have T := C6_heartbeat_failures [false, false, true, false, false, false]
    [] 0
  have T2 := C6_heartbeat_failures [false, false] [] 1
  ⟨T.2.1.mpr rfl, by decide, T2.2.2.2.1 (by decide)⟩

/- ===================================================================
   C10 — the snapshot only ever holds canonical field names
   =================================================================== -/

theorem keys_deltaEntry (st : JDict) (r c : String) :
    ∀ kv ∈ deltaEntry st r c, kv.1 = c := by
  intro kv h
  unfold deltaEntry at h
  cases hh : dictLookup st r <;> rw [hh] at h
  · simp at h
  · simp at h
    rw [h]

theorem keys_deltaEntrySentinel (st : JDict) (kk : String) :
    ∀ kv ∈ deltaEntrySentinel st kk, kv.1 = kk := by
  intro kv h
  unfold deltaEntrySentinel at h
  cases hh : dictLookup st kk <;> rw [hh] at h
  · simp at h
  · simp at h
    rw [h]

theorem normalizeDelta_keys (st : JDict) :
    ∀ kv ∈ normalizeDelta st, kv.1 ∈ canonicalKeys := by
  intro kv h
  unfold normalizeDelta at h
  simp only [List.mem_append] at h
  rcases h with (((((((((((((((h|h)|h)|h)|h)|h)|h)|h)|h)|h)|h)|h)|h)|h)|h)|h) <;>
    first
    | (rw [keys_deltaEntry _ _ _ _ h]; decide)
    | (rw [keys_deltaEntrySentinel _ _ _ h]; decide)

theorem mem_dictMerge {d n : JDict} {kv : String × JVal}
    (h : kv ∈ dictMerge d n) : kv ∈ d ∨ kv ∈ n := by
  unfold dictMerge at h
  rcases List.mem_append.mp h with h | h
  · exact Or.inl (List.mem_of_mem_filter h)
  · exact Or.inr h

theorem handle_websocket_update_keys (data : Option JDict) (st m : JDict)
    (hdata : ∀ d, data = some d → ∀ kv ∈ d, kv.1 ∈ canonicalKeys)
    (h : handle_websocket_update data st = some m) :
    ∀ kv ∈ m, kv.1 ∈ canonicalKeys := by
  unfold handle_websocket_update at h
  by_cases hc : has_meaningful_change st
  · rw [if_pos hc] at h
    cases data with
    | none =>
      simp only [Option.some.injEq] at h
      subst h
      exact normalizeDelta_keys st
    | some d =>
      simp only [Option.some.injEq] at h
      by_cases hd : d.isEmpty
      · rw [if_pos hd] at h
        subst h
        exact normalizeDelta_keys st
      · rw [if_neg hd] at h
        subst h
        intro kv hkv
        rcases mem_dictMerge hkv with hkv | hkv
        · exact hdata d rfl kv hkv
        · exact normalizeDelta_keys st kv hkv
  · rw [if_neg hc] at h
    cases h

theorem dictLookup_none_of_canonical (m : JDict) (k : String)
    (hkeys : ∀ kv ∈ m, kv.1 ∈ canonicalKeys) (hk : k ∉ canonicalKeys) :
    dictLookup m k = none :=
  dictLookup_eq_none_of_keys m k
    (fun kv hkv hke => hk (hke ▸ hkeys kv hkv))

/-- C10: starting from a snapshot whose keys are all canonical, handling any
push frame (including the `device_id` / `product_id` envelope fields the
websocket listener injects into the raw reported mapping) leaves a snapshot
whose keys are still all canonical; in particular `device_id` and
`product_id` are never written into the snapshot. -/
theorem C10_canonical_keys_invariant (data : JDict) (prior : Option JDict)
    (m : JDict)
    (hprior : ∀ d, prior = some d → ∀ kv ∈ d, kv.1 ∈ canonicalKeys)
    (hm : handle_message data prior = some m) :
    (∀ kv ∈ m, kv.1 ∈ canonicalKeys) ∧
    dictLookup m "device_id" = none ∧
    dictLookup m "product_id" = none := by
  have hkeys : ∀ kv ∈ m, kv.1 ∈ canonicalKeys := by
    unfold handle_message at hm
    split at hm
    · split at hm
      · unfold coordinator_after at hm
        split at hm
        · rename_i mm hup
          injection hm with hmm
          subst hmm
          exact handle_websocket_update_keys prior _ mm hprior hup
        · exact hprior m hm
      · exact hprior m hm
    · exact hprior m hm
  refine ⟨hkeys, ?_, ?_⟩
  · exact dictLookup_none_of_canonical m _ hkeys (by decide)
  · exact dictLookup_none_of_canonical m _ hkeys (by decide)

/-- Witness for C10 on a concrete frame carrying envelope metadata against
a canonical snapshot. -/
theorem C10_canonical_keys_invariant_witness :
    handle_message
      [("state", JVal.vobj
        [("reported", JVal.vobj [("power_state", JVal.vint 0)])]),
       ("device_id", JVal.vstr "dev"), ("product_id", JVal.vstr "prod")]
      (some [("power_state", JVal.vint 1)]) =
      some [("power_state", JVal.vint 0)] ∧
    ((∀ kv ∈ ([("power_state", JVal.vint 0)] : JDict),
        kv.1 ∈ canonicalKeys) ∧
      dictLookup [("power_state", JVal.vint 0)] "device_id" = none ∧
      dictLookup [("power_state", JVal.vint 0)] "product_id" = none) :=
  ⟨rfl,
   C10_canonical_keys_invariant
    [("state", JVal.vobj
      [("reported", JVal.vobj [("power_state", JVal.vint 0)])]),
     ("device_id", JVal.vstr "dev"), ("product_id", JVal.vstr "prod")]
    (some [("power_state", JVal.vint 1)]) [("power_state", JVal.vint 0)]
    (fun d hd => by
      cases hd
      intro kv hkv
      simp at hkv
      rw [hkv]
      decide)
    rfl⟩

/- ===================================================================
   C9 — UTF-8 lemmas
   =================================================================== -/

theorem char_toNat_lt (c : Char) : c.toNat < 1114112 := by
  rcases c.valid with h | ⟨h1, h2⟩
  · exact Nat.lt_trans h (by decide)
  · exact h2

theorem utf8EncodeChar_lt256 (n : Nat) (h : n < 1114112) :
    ∀ b ∈ utf8EncodeChar n, b < 256 := by
  intro b hb
  by_cases h1 : n < 0x80
  · simp [utf8EncodeChar, h1] at hb
    omega
  · by_cases h2 : n < 0x800
    · simp [utf8EncodeChar, h1, h2] at hb
      rcases hb with rfl | rfl <;> omega
    · by_cases h3 : n < 0x10000
      · simp [utf8EncodeChar, h1, h2, h3] at hb
        rcases hb with rfl | rfl | rfl <;> omega
      · simp [utf8EncodeChar, h1, h2, h3] at hb
        rcases hb with rfl | rfl | rfl | rfl <;> omega

theorem utf8Encode_lt256 (s : String) : ∀ b ∈ utf8Encode s, b < 256 := by
  intro b hb
  unfold utf8Encode at hb
  rw [List.mem_flatten] at hb
  rcases hb with ⟨l, hl, hbl⟩
  rw [List.mem_map] at hl
  rcases hl with ⟨c, _, rfl⟩
  exact utf8EncodeChar_lt256 c.toNat (char_toNat_lt c) b hbl

theorem utf8DecodeOne_encodeChar (c : Char) (rest : Bytes) :
    ∃ hd tl, utf8EncodeChar c.toNat = hd :: tl ∧
      utf8DecodeOne hd (tl ++ rest) = some (c.toNat, rest) := by
  by_cases h1 : c.toNat < 0x80
  · refine ⟨c.toNat, [], by rw [utf8EncodeChar, if_pos h1], ?_⟩
    rw [utf8DecodeOne.eq_def, if_pos h1]
    rfl
  · by_cases h2 : c.toNat < 0x800
    · refine ⟨0xC0 + c.toNat / 64, [0x80 + c.toNat % 64],
        by rw [utf8EncodeChar, if_neg h1, if_pos h2], ?_⟩
      rw [utf8DecodeOne.eq_def, if_neg (by omega), if_pos (by omega)]
      simp only [List.cons_append, List.nil_append]
      have harith :
          (0xC0 + c.toNat / 64 - 0xC0) * 64 + (0x80 + c.toNat % 64 - 0x80) =
            c.toNat := by omega
      rw [harith]
    · by_cases h3 : c.toNat < 0x10000
      · refine ⟨0xE0 + c.toNat / 4096,
          [0x80 + c.toNat / 64 % 64, 0x80 + c.toNat % 64],
          by rw [utf8EncodeChar, if_neg h1, if_neg h2, if_pos h3], ?_⟩
        rw [utf8DecodeOne.eq_def, if_neg (by omega), if_neg (by omega),
          if_pos (by omega)]
        simp only [List.cons_append, List.nil_append]
        have harith :
            (0xE0 + c.toNat / 4096 - 0xE0) * 4096 +
              (0x80 + c.toNat / 64 % 64 - 0x80) * 64 +
              (0x80 + c.toNat % 64 - 0x80) = c.toNat := by omega
        rw [harith]
      · refine ⟨0xF0 + c.toNat / 262144,
          [0x80 + c.toNat / 4096 % 64, 0x80 + c.toNat / 64 % 64,
           0x80 + c.toNat % 64],
          by rw [utf8EncodeChar, if_neg h1, if_neg h2, if_neg h3], ?_⟩
        rw [utf8DecodeOne.eq_def, if_neg (by omega), if_neg (by omega),
          if_neg (by omega)]
        simp only [List.cons_append, List.nil_append]
        have harith :
            (0xF0 + c.toNat / 262144 - 0xF0) * 262144 +
              (0x80 + c.toNat / 4096 % 64 - 0x80) * 4096 +
              (0x80 + c.toNat / 64 % 64 - 0x80) * 64 +
              (0x80 + c.toNat % 64 - 0x80) = c.toNat := by omega
        rw [harith]

theorem utf8DecodeAux_encode (cs : List Char) :
    ∀ fuel,
      ((cs.map (fun c => utf8EncodeChar c.toNat)).flatten).length ≤ fuel →
      utf8DecodeAux fuel
        ((cs.map (fun c => utf8EncodeChar c.toNat)).flatten) = some cs := by
  induction cs with
  | nil =>
    intro fuel _
    cases fuel <;> rfl
  | cons c rest ih =>
    intro fuel hfuel
    obtain ⟨hd, tl, henc, hone⟩ := utf8DecodeOne_encodeChar c
      ((rest.map (fun c => utf8EncodeChar c.toNat)).flatten)
    rw [List.map_cons, List.flatten_cons, henc] at hfuel ⊢
    simp only [List.cons_append] at hfuel ⊢
    cases fuel with
    | zero => simp at hfuel
    | succ f =>
      rw [utf8DecodeAux]
      simp only [hone]
      have hb :
          ((rest.map (fun c => utf8EncodeChar c.toNat)).flatten).length ≤
            f := by
        rw [List.length_cons, List.length_append] at hfuel
        omega
      rw [ih f hb]
      simp [Char.ofNat_toNat]

theorem utf8Decode_utf8Encode (s : String) :
    utf8Decode (utf8Encode s) = some s.toList :=
  utf8DecodeAux_encode s.toList _ (Nat.le_refl _)

/- ===================================================================
   C9 — base64 lemmas
   =================================================================== -/

theorem b64i_b64c : ∀ n, n < 64 → b64i (b64c n) = n := by decide

theorem b64c_ne_eq (n : Nat) : b64c n ≠ '=' := by
  by_cases h : n < 64
  · have hall : ∀ m, m < 64 → b64c m ≠ '=' := by decide
    exact hall n h
  · unfold b64c
    rw [List.getD_eq_default]
    · decide
    · have : b64Alphabet.length = 64 := by decide
      omega

theorem b64decode_encode (l : Bytes) :
    (∀ x ∈ l, x < 256) → b64decode (b64encode l) = l := by
  induction l using b64encode.induct with
  | case1 a b c rest ih =>
    intro hl
    have ha : a < 256 := hl a (by simp)
    have hb : b < 256 := hl b (by simp)
    have hc : c < 256 := hl c (by simp)
    rw [b64encode, b64decode, if_neg (b64c_ne_eq _), if_neg (b64c_ne_eq _),
      b64i_b64c _ (by omega), b64i_b64c _ (by omega), b64i_b64c _ (by omega),
      b64i_b64c _ (by omega), ih (fun x hx => hl x (by simp [hx]))]
    simp only [List.cons.injEq]
    refine ⟨by omega, by omega, by omega, trivial⟩
  | case2 a b =>
    intro hl
    have ha : a < 256 := hl a (by simp)
    have hb : b < 256 := hl b (by simp)
    rw [b64encode, b64decode, if_neg (b64c_ne_eq _), if_pos rfl,
      b64i_b64c _ (by omega), b64i_b64c _ (by omega), b64i_b64c _ (by omega)]
    simp only [List.cons.injEq]
    refine ⟨by omega, by omega, trivial⟩
  | case3 a =>
    intro hl
    have ha : a < 256 := hl a (by simp)
    rw [b64encode, b64decode, if_pos rfl, b64i_b64c _ (by omega),
      b64i_b64c _ (by omega)]
    simp only [List.cons.injEq]
    refine ⟨by omega, trivial⟩
  | case4 =>
    intro _
    rfl

/- ===================================================================
   C9 — block, XOR, CBC and padding lemmas
   =================================================================== -/

theorem chunk16_flatten (l : Bytes) : (chunk16 l).flatten = l := by
  induction l using chunk16.induct with
  | case1 l h =>
    rw [chunk16, if_pos h]
    simp [List.isEmpty_iff.mp h]
  | case2 l h ih =>
    rw [chunk16, if_neg h]
    simp [ih]

theorem chunk16_blocks_len (l : Bytes) :
    l.length % 16 = 0 → ∀ b ∈ chunk16 l, b.length = 16 := by
  induction l using chunk16.induct with
  | case1 l h =>
    intro _ b hb
    rw [chunk16, if_pos h] at hb
    simp at hb
  | case2 l h ih =>
    intro hl b hb
    rw [chunk16, if_neg h] at hb
    have hne : l.length ≠ 0 := by
      cases l
      · simp [List.isEmpty] at h
      · simp
    have h16 : 16 ≤ l.length := by omega
    rcases List.mem_cons.mp hb with rfl | hb2
    · rw [List.length_take]
      omega
    · exact ih (by rw [List.length_drop]; omega) b hb2

theorem chunk16_blocks_lt256 (l : Bytes) :
    (∀ x ∈ l, x < 256) → ∀ b ∈ chunk16 l, ∀ x ∈ b, x < 256 := by
  induction l using chunk16.induct with
  | case1 l h =>
    intro _ b hb
    rw [chunk16, if_pos h] at hb
    simp at hb
  | case2 l h ih =>
    intro hl b hb
    rw [chunk16, if_neg h] at hb
    rcases List.mem_cons.mp hb with rfl | hb2
    · intro x hx
      exact hl x (List.mem_of_mem_take hx)
    · exact ih (fun x hx => hl x (List.mem_of_mem_drop hx)) b hb2

theorem chunk16_flatten_inv (bs : List Bytes) :
    (∀ b ∈ bs, b.length = 16) → chunk16 bs.flatten = bs := by
  induction bs with
  | nil =>
    intro _
    simp [chunk16]
  | cons b rest ih =>
    intro h
    have hb : b.length = 16 := h b (by simp)
    have hbne : b ≠ [] := by
      intro hh
      rw [hh] at hb
      cases hb
    rw [List.flatten_cons, chunk16,
      if_neg (by simp [List.isEmpty_iff, hbne]),
      List.take_left' hb, List.drop_left' hb,
      ih (fun x hx => h x (by simp [hx]))]

theorem xorBytes_length (a b : Bytes) :
    (xorBytes a b).length = min a.length b.length := by
  simp [xorBytes]

theorem xorBytes_cancel (a b : Bytes) :
    a.length = b.length → xorBytes a (xorBytes a b) = b := by
  induction a generalizing b with
  | nil =>
    intro h
    cases b
    · rfl
    · simp at h
  | cons x xs ih =>
    intro h
    cases b with
    | nil => simp at h
    | cons y ys =>
      simp only [xorBytes, List.zipWith_cons_cons]
      have hx : x.xor (x.xor y) = y := Nat.xor_cancel_left x y
      rw [hx]
      have := ih ys (by simpa using h)
      simp only [xorBytes] at this
      rw [this]

theorem xorBytes_lt256 (a b : Bytes) :
    (∀ x ∈ a, x < 256) → (∀ x ∈ b, x < 256) →
    ∀ x ∈ xorBytes a b, x < 256 := by
  induction a generalizing b with
  | nil =>
    intro _ _ x hx
    simp [xorBytes] at hx
  | cons y ys ih =>
    intro ha hb x hx
    cases b with
    | nil => simp [xorBytes] at hx
    | cons z zs =>
      simp only [xorBytes, List.zipWith_cons_cons] at hx
      rcases List.mem_cons.mp hx with rfl | hx2
      · have h1 : y < 2 ^ 8 := by
          have := ha y (by simp)
          simpa using this
        have h2 : z < 2 ^ 8 := by
          have := hb z (by simp)
          simpa using this
        have hxy : y.xor z < 256 := @Nat.xor_lt_two_pow y z 8 h1 h2
        exact hxy
      · exact ih zs (fun u hu => ha u (by simp [hu]))
          (fun u hu => hb u (by simp [hu])) x hx2

theorem cbc_roundtrip (E D : Bytes → Bytes)
    (hElen : ∀ x, x.length = 16 → (E x).length = 16)
    (hED : ∀ x, x.length = 16 → D (E x) = x)
    (hEb : ∀ x, x.length = 16 → (∀ y ∈ x, y < 256) → ∀ y ∈ E x, y < 256) :
    ∀ (bs : List Bytes) (prev : Bytes),
      prev.length = 16 → (∀ y ∈ prev, y < 256) →
      (∀ blk ∈ bs, blk.length = 16 ∧ ∀ y ∈ blk, y < 256) →
      (∀ cblk ∈ cbcEncBlocks E prev bs,
        cblk.length = 16 ∧ ∀ y ∈ cblk, y < 256) ∧
      cbcDecBlocks D prev (cbcEncBlocks E prev bs) = bs := by
  intro bs
  induction bs with
  | nil =>
    intro prev _ _ _
    exact ⟨by simp [cbcEncBlocks], by simp [cbcEncBlocks, cbcDecBlocks]⟩
  | cons b rest ih =>
    intro prev hp1 hp2 hbs
    obtain ⟨hb1, hb2⟩ := hbs b (by simp)
    have hxlen : (xorBytes prev b).length = 16 := by
      rw [xorBytes_length, hp1, hb1]
      simp
    have hxb : ∀ y ∈ xorBytes prev b, y < 256 := xorBytes_lt256 prev b hp2 hb2
    have hclen : (E (xorBytes prev b)).length = 16 := hElen _ hxlen
    have hcb : ∀ y ∈ E (xorBytes prev b), y < 256 := hEb _ hxlen hxb
    have ihr := ih (E (xorBytes prev b)) hclen hcb
      (fun blk hblk => hbs blk (by simp [hblk]))
    constructor
    · intro cblk hc
      simp only [cbcEncBlocks] at hc
      rcases List.mem_cons.mp hc with rfl | hc2
      · exact ⟨hclen, hcb⟩
      · exact ihr.1 cblk hc2
    · simp only [cbcEncBlocks, cbcDecBlocks]
      rw [hED _ hxlen, xorBytes_cancel prev b (by rw [hp1, hb1]), ihr.2]

theorem padPKCS7_length (l : Bytes) : (padPKCS7 l).length % 16 = 0 := by
  simp only [padPKCS7, List.length_append, List.length_replicate]
  omega

theorem padPKCS7_lt256 (l : Bytes) (h : ∀ x ∈ l, x < 256) :
    ∀ x ∈ padPKCS7 l, x < 256 := by
  intro x hx
  simp only [padPKCS7] at hx
  rcases List.mem_append.mp hx with hx | hx
  · exact h x hx
  · have := List.eq_of_mem_replicate hx
    omega

theorem unpadPKCS7_eq_of_getLast {l : Bytes} {n : Nat}
    (h : l.getLast? = some n) :
    unpadPKCS7 l =
      if n = 0 ∨ 16 < n ∨ l.length < n then none
      else if (l.drop (l.length - n)).all (fun x => x == n) then
        some (l.take (l.length - n))
      else none := by
  unfold unpadPKCS7
  rw [h]

theorem unpadPKCS7_pad (l : Bytes) : unpadPKCS7 (padPKCS7 l) = some l := by
  have hmod : l.length % 16 < 16 := Nat.mod_lt _ (by omega)
  have hn1 : 1 ≤ 16 - l.length % 16 := by omega
  have hn16 : 16 - l.length % 16 ≤ 16 := by omega
  have hrep : List.replicate (16 - l.length % 16) (16 - l.length % 16) =
      List.replicate (16 - l.length % 16 - 1) (16 - l.length % 16) ++
        [16 - l.length % 16] := by
    rw [← List.replicate_succ']
    congr 1
    omega
  have hlast : (padPKCS7 l).getLast? = some (16 - l.length % 16) := by
    simp only [padPKCS7]
    rw [hrep, ← List.append_assoc, List.getLast?_concat]
  have hlen : (padPKCS7 l).length = l.length + (16 - l.length % 16) := by
    simp [padPKCS7]
  have harg : (padPKCS7 l).length - (16 - l.length % 16) = l.length := by
    omega
  have hdrop : (padPKCS7 l).drop l.length =
      List.replicate (16 - l.length % 16) (16 - l.length % 16) := by
    simp only [padPKCS7]
    rw [List.drop_left]
  have htake : (padPKCS7 l).take l.length = l := by
    simp only [padPKCS7]
    rw [List.take_left]
  rw [unpadPKCS7_eq_of_getLast hlast, if_neg (by omega), if_pos ?hall,
    harg, htake]
  case hall =>
    rw [harg, hdrop]
    rw [List.all_eq_true]
    intro x hx
    rw [List.eq_of_mem_replicate hx]
    exact beq_self_eq_true _

/- ===================================================================
   C9 — the v2 command encryption round-trips
   =================================================================== -/

/-- C9: for every signature, app secret and plaintext,
`decrypt_command_payload(sign, secret, encrypt_command_payload(sign, secret,
plaintext))` returns exactly the original plaintext.  The external AES
block cipher is any keyed 16-byte block permutation (`E` with inverse `D`
producing bytes), the hash `sha` is any digest function — the scheme's key
derivation applies it identically on both sides. -/
theorem C9_encrypt_decrypt_roundtrip (E D : Bytes → Bytes → Bytes)
    (sha : Bytes → String) (sign app_secret plaintext : String)
    (hElen : ∀ k x, x.length = 16 → (E k x).length = 16)
    (hED : ∀ k x, x.length = 16 → D k (E k x) = x)
    (hEb : ∀ k x, x.length = 16 → (∀ y ∈ x, y < 256) →
      ∀ y ∈ E k x, y < 256) :
    decrypt_command_payload D sha sign app_secret
      (encrypt_command_payload E sha sign app_secret plaintext) =
      some plaintext := by
  have hIVlen : AES_IV.length = 16 := by decide
  have hIVb : ∀ y ∈ AES_IV, y < 256 := by decide
  have hplen : (padPKCS7 (utf8Encode plaintext)).length % 16 = 0 :=
    padPKCS7_length _
  have hpbytes : ∀ x ∈ padPKCS7 (utf8Encode plaintext), x < 256 :=
    padPKCS7_lt256 _ (utf8Encode_lt256 plaintext)
  have hblk : ∀ b ∈ chunk16 (padPKCS7 (utf8Encode plaintext)),
      b.length = 16 ∧ ∀ y ∈ b, y < 256 := fun b hb =>
    ⟨chunk16_blocks_len _ hplen b hb, chunk16_blocks_lt256 _ hpbytes b hb⟩
  have hcbc := cbc_roundtrip (E (deriveKey sha sign app_secret))
    (D (deriveKey sha sign app_secret))
    (hElen _) (hED _) (hEb _)
    (chunk16 (padPKCS7 (utf8Encode plaintext))) AES_IV hIVlen hIVb hblk
  have hctbytes : ∀ y ∈ AES_IV ++
      (cbcEncBlocks (E (deriveKey sha sign app_secret)) AES_IV
        (chunk16 (padPKCS7 (utf8Encode plaintext)))).flatten, y < 256 := by
    intro y hy
    rcases List.mem_append.mp hy with hy | hy
    · exact hIVb y hy
    · rw [List.mem_flatten] at hy
      rcases hy with ⟨blk, hblk2, hyblk⟩
      exact (hcbc.1 blk hblk2).2 y hyblk
  have hctlen : ∀ b ∈ cbcEncBlocks (E (deriveKey sha sign app_secret)) AES_IV
      (chunk16 (padPKCS7 (utf8Encode plaintext))), b.length = 16 :=
    fun b hb => (hcbc.1 b hb).1
  have hmk : ∀ cs : List Char, (String.mk cs).toList = cs := fun _ => rfl
  simp only [encrypt_command_payload, decrypt_command_payload]
  rw [hmk, b64decode_encode _ hctbytes, List.take_left' hIVlen,
    List.drop_left' hIVlen, chunk16_flatten_inv _ hctlen, hcbc.2,
    chunk16_flatten, unpadPKCS7_pad]
  show (match utf8Decode (utf8Encode plaintext) with
        | some cs => some (String.mk cs)
        | none => none) = some plaintext
  rw [utf8Decode_utf8Encode]
  rfl

/-- Witness for C9 with the identity block cipher and a trivial digest on a
concrete command payload. -/
theorem C9_encrypt_decrypt_roundtrip_witness :
    decrypt_command_payload (fun _ x => x) (fun _ => "digest")
      "SIGN" "SECRET"
      (encrypt_command_payload (fun _ x => x) (fun _ => "digest")
        "SIGN" "SECRET" "\x7b\"power_state\":1\x7d") =
      some "\x7b\"power_state\":1\x7d" :=
  C9_encrypt_decrypt_roundtrip (fun _ x => x) (fun _ x => x)
    (fun _ => "digest") "SIGN" "SECRET" "\x7b\"power_state\":1\x7d"
    (fun _ _ h => h) (fun _ _ _ => rfl) (fun _ _ _ hb => hb)

end BestwaySpa
